import Mathlib

/-!
Verification of the mockpath HTTP mock server (src/main.py, src/src/mockpath/cli.py;
the two files implement the same loader/matcher/watcher logic).

The embedding is shallow:
* JSON / YAML scalar values are modelled by the inductive `JValue`.  The model covers
  the null / bool / integer / string / array / object fragment; floating point numbers
  are outside the model.  Python represents JSON `null` as `None`, and the code also
  uses `None` for "absent payload", so `JValue.null` plays both roles, exactly as in
  the source.
* Python `==` on parsed JSON data (dict equality is key-based, and `True == 1`,
  `False == 0` by bool/int coercion) is modelled by `pyEq`.
* The file system is a pure value: the list of `*.yaml` files (with their already
  parsed contents, `Except Unit` standing for a raised parse error) and a map from
  relative path to parsed JSON files.  `load_specs` folds over the lexicographically
  sorted file list exactly as `sorted(spec_dir.rglob("*.yaml"))` does.
* The request handler `handle_request` takes the request with its query string
  already parsed (the output of `urllib.parse.parse_qs`) and the raw body outcome
  (`RawBody`), mirroring `MockHandler.handle_request` / `_read_body`.
* The reload watcher loop body is `watch_tick`; an uncaught exception from
  `load_specs` terminates the daemon thread, modelled by the `alive` flag.
-/

namespace Mockpath

mutual
/-- JSON-compatible values as produced by `yaml.safe_load` / `json.load`
(integer-number fragment). `null` doubles as Python `None`, i.e. "absent". -/
inductive JValue where
  | null
  | bool (b : Bool)
  | num (n : Int)
  | str (s : String)
  | arr (xs : JArr)
  | obj (kvs : JObj)
deriving DecidableEq

inductive JArr where
  | nil
  | cons (v : JValue) (tail : JArr)
deriving DecidableEq

inductive JObj where
  | nil
  | cons (k : String) (v : JValue) (tail : JObj)
deriving DecidableEq
end

/-- First value bound to key `k` in a JSON object (Python dict lookup; objects
produced by `json.load` have unique keys). -/
def jobjLookup (k : String) : JObj → Option JValue
  | .nil => none
  | .cons k' v tail => if k' = k then some v else jobjLookup k tail

/-- Number of entries of a JSON object (Python `len`). -/
def jobjLen : JObj → Nat
  | .nil => 0
  | .cons _ _ tail => jobjLen tail + 1

/-- Python bool-to-int coercion used by `==` (`True == 1`, `False == 0`). -/
def boolToInt (b : Bool) : Int := if b then 1 else 0

/-! ### String helpers

Executable translations of the string operations the source uses
(`str.upper()`, `str.split(".")`, `"/".join`, and string comparison, which
Python performs lexicographically by code point). -/

/-- Python `str.upper()` (the method tokens are ASCII in practice, where
`Char.toUpper` agrees with Python). -/
def pyUpper (s : String) : String := String.mk (s.toList.map Char.toUpper)

/-- Python `str.split(".")`: `""` yields `[""]`, separators at the ends yield
empty fields. -/
def splitOnDot (s : String) : List String :=
  (go s.toList).map String.mk
where
  go : List Char → List (List Char)
    | [] => [[]]
    | c :: rest =>
      if c = '.' then [] :: go rest
      else
        match go rest with
        | h :: t => (c :: h) :: t
        | [] => [[c]]

/-- Python `"/".join(xs)`. -/
def joinSlash : List String → String
  | [] => ""
  | [x] => x
  | x :: y :: rest => x ++ "/" ++ joinSlash (y :: rest)

/-- Lexicographic code-point comparison of char lists (Python string `<`). -/
def chLt : List Char → List Char → Bool
  | [], [] => false
  | [], _ :: _ => true
  | _ :: _, [] => false
  | a :: as, b :: bs =>
    if a.toNat < b.toNat then true
    else if b.toNat < a.toNat then false
    else chLt as bs

/-- Python string `<`. -/
def strLt (a b : String) : Bool := chLt a.toList b.toList

/-- Python string `<=`. -/
def strLe (a b : String) : Bool := strLt a b || a == b

mutual
/-- Python `==` on parsed JSON data, as used by `body == m.request_body`:
structural deep equality, except that `bool` and `num` compare through
bool/int coercion, and dict comparison is key-based (length equal and every
key of the left dict present in the right with `==` values). -/
def pyEq : JValue → JValue → Bool
  | .null, .null => true
  | .bool a, .bool b => a = b
  | .bool a, .num n => boolToInt a = n
  | .num n, .bool b => n = boolToInt b
  | .num a, .num b => a = b
  | .str a, .str b => a = b
  | .arr a, .arr b => pyEqArr a b
  | .obj a, .obj b => jobjLen a = jobjLen b && pyEqSub a b
  | _, _ => false

def pyEqArr : JArr → JArr → Bool
  | .nil, .nil => true
  | .cons v r, .cons w s => pyEq v w && pyEqArr r s
  | _, _ => false

def pyEqSub : JObj → JObj → Bool
  | .nil, _ => true
  | .cons k v r, b =>
      (match jobjLookup k b with
       | some w => pyEq v w
       | none => false) && pyEqSub r b
end

mutual
/-- Modelled from the spec: "type-sensitive deep JSON equality" — deep equality
of JSON values in which values of different JSON types (in particular a boolean
and a number) are never equal; object comparison is key-based as for `pyEq`. -/
def jeqSpec : JValue → JValue → Bool
  | .null, .null => true
  | .bool a, .bool b => a = b
  | .num a, .num b => a = b
  | .str a, .str b => a = b
  | .arr a, .arr b => jeqSpecArr a b
  | .obj a, .obj b => jobjLen a = jobjLen b && jeqSpecSub a b
  | _, _ => false

def jeqSpecArr : JArr → JArr → Bool
  | .nil, .nil => true
  | .cons v r, .cons w s => jeqSpec v w && jeqSpecArr r s
  | _, _ => false

def jeqSpecSub : JObj → JObj → Bool
  | .nil, _ => true
  | .cons k v r, b =>
      (match jobjLookup k b with
       | some w => jeqSpec v w
       | none => false) && jeqSpecSub r b
end

/-! ### Data model (`MatchEntry`, `RouteEntry`, routing table) -/

/-- One conditional rule of a route (dataclass `MatchEntry`).  `request_body`
and `response` are Python objects where `None` (= `JValue.null`) means
"absent", exactly as in the source. -/
structure MatchEntry where
  params : Option (List (String × String))
  request_body : JValue
  status : Int
  response : JValue
deriving DecidableEq

/-- One route (dataclass `RouteEntry`). -/
structure RouteEntry where
  status : Int
  default_response : JValue
  «matches» : List MatchEntry
deriving DecidableEq

/-- Routing-table key: `(uppercased method, URL path)`. -/
abbrev RouteKey := String × String

/-- The routing table `dict[tuple[str, str], RouteEntry]`.  `dict` assignment is
modelled by prepending, `dict.get` by `List.lookup` (first, i.e. most recent,
binding wins — the same observable behaviour as Python's dict). -/
abbrev Routes := List (RouteKey × RouteEntry)

/-! ### File system model and spec loader (`load_specs`) -/

/-- The YAML keys of one element of the spec's `matches:` list that the loader
reads.  An `Option` field is `some v` exactly when the key is present in the
YAML mapping with value `v` (`some JValue.null` = key present with value
`null`); for `params` and `status` the code uses `m.get(...)`, which conflates
an explicit `null` with absence, hence their payload types. -/
structure MatchSpec where
  params : Option (List (String × String))
  request : Option JValue
  request_file : Option String
  status : Option Int
  response : Option JValue
  response_file : Option String
deriving DecidableEq

/-- The top-level YAML mapping of a spec file (after `yaml.safe_load(f) or {}`;
an empty document is the all-absent config).  `response` / `response_file`
top-level keys may be present in the document; the loader never reads them. -/
structure YamlConfig where
  status : Option Int
  «matches» : List MatchSpec
  response : Option JValue
  response_file : Option String
deriving DecidableEq

deriving instance DecidableEq for Except

/-- A `*.yaml` file found by `spec_dir.rglob("*.yaml")`: its directory path
relative to the spec root, its stem (filename without the final `.yaml`), and
the outcome of parsing it (`Except.error` models a raised YAML error, or a
non-mapping document on which `config.get` would raise). -/
structure YamlFile where
  dirParts : List String
  stem : String
  content : Except Unit YamlConfig
deriving DecidableEq

/-- The spec directory: its yaml files and its JSON files, the latter keyed by
path relative to the spec root; a key absent from `jsons` is a missing file,
`Except.error` a file whose `json.load` raises. -/
structure FileSystem where
  yamls : List YamlFile
  jsons : List (String × Except Unit JValue)
deriving DecidableEq

/-- Look a JSON file up by relative path (`none` = file does not exist). -/
def fsJson (fs : FileSystem) (p : String) : Option (Except Unit JValue) :=
  List.lookup p fs.jsons

/-- Join a directory (relative to the spec root) with a file name or relative
path, as `yaml_path.parent / rel` produces. -/
def joinPath (dir : List String) (rel : String) : String :=
  joinSlash (dir ++ [rel])

/-- Relative path of a yaml file, the sort key of `sorted(spec_dir.rglob(...))`
(all full paths share the `spec_dir` prefix, so comparing relative paths is
equivalent). -/
def relPath (f : YamlFile) : String :=
  joinSlash (f.dirParts ++ [f.stem ++ ".yaml"])

/-- Boolean path comparison handed to the sort. -/
def pathLe (a b : YamlFile) : Bool := strLe (relPath a) (relPath b)

/-- `"/" + "/".join([*rel.parts, name])` (identical to the `else` branch when
there are no directory parts). -/
def url_path (dir : List String) (name : String) : String :=
  "/" ++ joinSlash (dir ++ [name])

/-- The `(method, url_path)` key a yaml file contributes, or `none` when the
file is skipped (`len(parts) < 2`). -/
def route_key (f : YamlFile) : Option RouteKey :=
  match splitOnDot f.stem with
  | name :: tok :: _ => some (pyUpper tok, url_path f.dirParts name)
  | _ => none

/-- Resolution of a match rule's response (`inline > response_file >
convention`), lines 55-67 of main.py.  `Except.error` models the exception
raised on a missing `response_file` or on invalid JSON. -/
def resolve_response (fs : FileSystem) (dir : List String) (name tok : String)
    (i : Nat) (m : MatchSpec) : Except Unit JValue :=
  match m.response with
  | some v => .ok v
  | none =>
    match m.response_file with
    | some rf =>
      match fsJson fs (joinPath dir rf) with
      | some (.ok v) => .ok v
      | _ => .error ()
    | none =>
      match fsJson fs (joinPath dir (name ++ "." ++ tok ++ ".resp." ++ toString i ++ ".json")) with
      | some (.ok v) => .ok v
      | some (.error _) => .error ()
      | none => .ok .null

/-- Resolution of a match rule's request body (`inline > request_file >
convention`), lines 69-81 of main.py. -/
def resolve_request (fs : FileSystem) (dir : List String) (name tok : String)
    (i : Nat) (m : MatchSpec) : Except Unit JValue :=
  match m.request with
  | some v => .ok v
  | none =>
    match m.request_file with
    | some rf =>
      match fsJson fs (joinPath dir rf) with
      | some (.ok v) => .ok v
      | _ => .error ()
    | none =>
      match fsJson fs (joinPath dir (name ++ "." ++ tok ++ ".req." ++ toString i ++ ".json")) with
      | some (.ok v) => .ok v
      | some (.error _) => .error ()
      | none => .ok .null

/-- Build one `MatchEntry` from the `i`-th element of `matches:`. -/
def build_match (fs : FileSystem) (dir : List String) (name tok : String)
    (defSt : Int) (i : Nat) (m : MatchSpec) : Except Unit MatchEntry :=
  match resolve_response fs dir name tok i m with
  | .error e => .error e
  | .ok resp =>
    match resolve_request fs dir name tok i m with
    | .error e => .error e
    | .ok req => .ok ⟨m.params, req, m.status.getD defSt, resp⟩

/-- The `for i, m in enumerate(config.get("matches", []), start=1)` loop. -/
def build_matches (fs : FileSystem) (dir : List String) (name tok : String)
    (defSt : Int) : Nat → List MatchSpec → Except Unit (List MatchEntry)
  | _, [] => .ok []
  | i, m :: rest =>
    match build_match fs dir name tok defSt i m with
    | .error e => .error e
    | .ok me =>
      match build_matches fs dir name tok defSt (i + 1) rest with
      | .error e => .error e
      | .ok tail => .ok (me :: tail)

/-- The RouteEntry default response, lines 45-49 of main.py: solely the
convention file `<name>.<tok>.resp.json` beside the spec file (`tok` is the
method token as written in the filename, not uppercased). -/
def default_response_of (fs : FileSystem) (dir : List String)
    (name tok : String) : Except Unit JValue :=
  match fsJson fs (joinPath dir (name ++ "." ++ tok ++ ".resp.json")) with
  | some (.ok v) => .ok v
  | some (.error _) => .error ()
  | none => .ok .null

/-- Build the `RouteEntry` of one spec file from its parsed config. -/
def build_entry (fs : FileSystem) (dir : List String) (name tok : String)
    (cfg : YamlConfig) : Except Unit RouteEntry :=
  match default_response_of fs dir name tok with
  | .error e => .error e
  | .ok dresp =>
    match build_matches fs dir name tok (cfg.status.getD 200) 1 cfg.«matches» with
    | .error e => .error e
    | .ok ms => .ok ⟨cfg.status.getD 200, dresp, ms⟩

/-- Whole processing of one yaml file (parse outcome included); `.error` for a
skipped file, where the result is never used. -/
def entry_of (fs : FileSystem) (f : YamlFile) : Except Unit RouteEntry :=
  match splitOnDot f.stem with
  | name :: tok :: _ =>
    match f.content with
    | .error e => .error e
    | .ok cfg => build_entry fs f.dirParts name tok cfg
  | _ => .error ()

/-- One iteration of the loader loop over a yaml file. -/
def load_step (fs : FileSystem) (acc : Except Unit Routes) (f : YamlFile) :
    Except Unit Routes :=
  match acc with
  | .error e => .error e
  | .ok routes =>
    match splitOnDot f.stem with
    | name :: tok :: _ =>
      match f.content with
      | .error _ => .error ()
      | .ok cfg =>
        match build_entry fs f.dirParts name tok cfg with
        | .error _ => .error ()
        | .ok entry => .ok (((pyUpper tok, url_path f.dirParts name), entry) :: routes)
    | _ => .ok routes

/-- `load_specs(spec_dir)`: iterate the yaml files in lexicographic path order;
`.error` models the uncaught exception raised on the first bad file. -/
def load_specs (fs : FileSystem) : Except Unit Routes :=
  (List.insertionSort (fun a b => pathLe a b = true) fs.yamls).foldl (load_step fs) (.ok [])

/-! ### Request handling (`MockHandler.handle_request`, `_read_body`) -/

/-- A value of the flattened query dict `query_flat`: a `str` for a
single-valued parameter, the full `list` of values otherwise. -/
inductive QVal where
  | str (s : String)
  | list (l : List String)
deriving DecidableEq

/-- `{k: v[0] if len(v) == 1 else v for k, v in query.items()}` applied to the
output of `parse_qs` (a mapping from key to its non-empty list of values). -/
def flattenQuery (q : List (String × List String)) : List (String × QVal) :=
  q.map fun p => (p.1, match p.2 with
    | [v] => .str v
    | vs => .list vs)

/-- `all(query_flat.get(k) == v for k, v in m.params.items())`: Python `==`
between `query_flat.get(k)` (`None`, a `str`, or a `list`) and the expected
`str` is true only for an equal `str`. -/
def params_satisfied (qf : List (String × QVal)) (ps : List (String × String)) : Bool :=
  ps.all fun p =>
    match List.lookup p.1 qf with
    | some (.str s) => s == p.2
    | _ => false

/-- The outcome of reading the raw request body: absent/empty, present but not
JSON, or parsed JSON. -/
inductive RawBody where
  | empty
  | invalid
  | json (v : JValue)
deriving DecidableEq

/-- `MockHandler._read_body`: `None` (= `JValue.null`) for a zero-length body
and on a `json.loads` failure, else the parsed value. -/
def read_body : RawBody → JValue
  | .empty => .null
  | .invalid => .null
  | .json v => v

/-- An incoming request: `rawPath` is `urlparse(self.path).path`, `query` the
`parse_qs` result, `rawBody` the body as `_read_body` would see it. -/
structure Request where
  method : String
  rawPath : String
  query : List (String × List String)
  rawBody : RawBody
deriving DecidableEq

/-- The response the handler writes: status plus JSON payload
(`JValue.null` = no body written, since `_send` skips a `None` body). -/
structure HttpResponse where
  status : Int
  body : JValue
deriving DecidableEq

/-- `parsed.path.rstrip("/") or "/"`. -/
def normalizePath (s : String) : String :=
  let t := String.mk ((s.toList.reverse.dropWhile (fun c => c = '/')).reverse)
  if t = "" then "/" else t

/-- The structured error payload `{"error": msg}`. -/
def errBody (msg : String) : JValue :=
  .obj (.cons "error" (.str msg) .nil)

/-- Whether one match rule fires for the given flattened query and parsed body:
a `params` rule checks its params, otherwise a rule with a non-`None`
`request_body` checks Python equality with the body, otherwise nothing. -/
def rule_sat (qf : List (String × QVal)) (body : JValue) (m : MatchEntry) : Bool :=
  match m.params with
  | some ps => params_satisfied qf ps
  | none =>
    if m.request_body = JValue.null then false
    else pyEq body m.request_body

/-- The `for m in route.matches` loop with its fallback
`self._send(route.status, route.default_response)`. -/
def find_response (qf : List (String × QVal)) (body : JValue)
    (fb : HttpResponse) : List MatchEntry → HttpResponse
  | [] => fb
  | m :: rest =>
    if rule_sat qf body m then ⟨m.status, m.response⟩
    else find_response qf body fb rest

/-- `MockHandler.handle_request` against a given routing table.  The body is
read lazily in the source; reading is side-effect free here, so the model
passes the parsed body directly. -/
def handle_request (routes : Routes) (req : Request) : HttpResponse :=
  match List.lookup (pyUpper req.method, normalizePath req.rawPath) routes with
  | none =>
    if routes.any (fun p => p.1.2 == normalizePath req.rawPath) then
      ⟨405, errBody "Method Not Allowed"⟩
    else
      ⟨404, errBody "Not Found"⟩
  | some route =>
    find_response (flattenQuery req.query) (read_body req.rawBody)
      ⟨route.status, route.default_response⟩ route.«matches»

/-! ### Reload watcher (`watch_reload`) -/

/-- A snapshot: file path to `st_mtime` mapping (mtimes modelled as `Int`;
paths are unique, being file-system paths). -/
abbrev Snapshot := List (String × Int)

/-- Python dict equality of two snapshots (`current != mtimes` negated). -/
def snapEq (a b : Snapshot) : Bool :=
  a.length == b.length && a.all fun p =>
    match List.lookup p.1 b with
    | some t => t == p.2
    | none => false

/-- What one poll tick observes on disk: the current snapshot together with
the file contents `load_specs` would read. -/
structure DiskState where
  fs : FileSystem
  snap : Snapshot
deriving DecidableEq

/-- The watcher thread's state: its `mtimes` local, the global `routes`, and
whether the thread is still running.  `alive = false` models the daemon thread
having been terminated by an exception that escaped the `while` loop. -/
structure WatchState where
  mtimes : Snapshot
  routes : Routes
  alive : Bool
deriving DecidableEq

/-- One iteration of the `while True` loop in `watch_reload`: if the snapshot
differs, `mtimes` is updated and then `load_specs` runs; `load_specs` raising
leaves `routes` unassigned and kills the thread (there is no `try`/`except`
around the call). -/
def watch_tick (d : DiskState) (st : WatchState) : WatchState :=
  if st.alive = false then st
  else if snapEq d.snap st.mtimes then st
  else
    match load_specs d.fs with
    | .ok r => ⟨d.snap, r, true⟩
    | .error _ => ⟨d.snap, st.routes, false⟩

/-- The watcher run over a sequence of poll-tick observations. -/
def watch_run (ds : List DiskState) (st : WatchState) : WatchState :=
  ds.foldl (fun s d => watch_tick d s) st

/-! ### Definitions taken from the spec's wording (for refutations) -/

/-- Modelled from the spec: "every key in its `params` mapping is present in
the request's query parameters with exactly the expected string value
(multi-valued query parameters are compared as their first value)". -/
def spec_params_first (q : List (String × List String))
    (ps : List (String × String)) : Bool :=
  ps.all fun p =>
    match List.lookup p.1 q with
    | some (v :: _) => v == p.2
    | _ => false

/-! ### Helper lemmas -/

/-- The match loop returns the first satisfied rule's payload, else the
fallback. -/
theorem find_response_eq_find (qf : List (String × QVal)) (body : JValue)
    (fb : HttpResponse) (ms : List MatchEntry) :
    find_response qf body fb ms =
      match ms.find? (rule_sat qf body) with
      | some m => ⟨m.status, m.response⟩
      | none => fb := by
  induction ms with
  | nil => rfl
  | cons m rest ih =>
    cases h : rule_sat qf body m <;>
      simp [find_response, List.find?_cons, h, ih]

/-- Python `None == x` is false for non-`None` `x`. -/
theorem pyEq_null_left (v : JValue) (h : v ≠ JValue.null) :
    pyEq JValue.null v = false := by
  cases v <;> simp [pyEq] at h ⊢

/-! ### C6, C9, C10: match-rule evaluation -/

/-- C6: when a RouteEntry exists for the request's (method, normalized path),
its match rules are evaluated in declaration order, the first satisfied rule's
status and response are returned and evaluation stops there; if no rule is
satisfied, the fallback status and `default_response` are returned — the
404/405 branch is never taken. -/
theorem route_hit_first_match (routes : Routes) (req : Request)
    (route : RouteEntry)
    (h : List.lookup (pyUpper req.method, normalizePath req.rawPath) routes = some route) :
    handle_request routes req =
      match route.«matches».find? (rule_sat (flattenQuery req.query) (read_body req.rawBody)) with
      | some m => ⟨m.status, m.response⟩
      | none => ⟨route.status, route.default_response⟩ := by
  unfold handle_request
  rw [h]
  exact find_response_eq_find _ _ _ _

/-- Witness for C6: a request whose route has a satisfied second rule. -/
theorem route_hit_first_match_witness :
    handle_request
      [(("GET", "/u"),
        ⟨200, JValue.null,
         [⟨some [("x", "1")], JValue.null, 201, JValue.str "first"⟩,
          ⟨some [], JValue.null, 202, JValue.str "second"⟩]⟩)]
      ⟨"get", "/u/", [], .empty⟩ = ⟨202, JValue.str "second"⟩ :=
  route_hit_first_match _ ⟨"get", "/u/", [], .empty⟩
    ⟨200, JValue.null,
     [⟨some [("x", "1")], JValue.null, 201, JValue.str "first"⟩,
      ⟨some [], JValue.null, 202, JValue.str "second"⟩]⟩ rfl

/-- C9: a MatchEntry with `params` set is evaluated as a query-parameter rule;
with `params` unset and a non-absent `request_body` as a body-equality rule;
with neither set (an explicit `request: null` resolves to `None`, i.e.
`JValue.null`) it never fires, and deleting it from the match list changes no
response. -/
theorem dead_rule_never_fires (m : MatchEntry)
    (h1 : m.params = none) (h2 : m.request_body = JValue.null) :
    (∀ qf body ps (x : MatchEntry), x.params = some ps →
        rule_sat qf body x = params_satisfied qf ps) ∧
    (∀ qf body (x : MatchEntry), x.params = none → x.request_body ≠ JValue.null →
        rule_sat qf body x = pyEq body x.request_body) ∧
    (∀ qf body, rule_sat qf body m = false) ∧
    (∀ qf body fb ms1 ms2,
      find_response qf body fb (ms1 ++ m :: ms2) =
        find_response qf body fb (ms1 ++ ms2)) := by
  have hs : ∀ qf body, rule_sat qf body m = false := by
    intro qf body
    simp [rule_sat, h1, h2]
  refine ⟨?_, ?_, hs, ?_⟩
  · intro qf body ps x hx
    simp [rule_sat, hx]
  · intro qf body x hx hb
    simp [rule_sat, hx, hb]
  · intro qf body fb ms1 ms2
    induction ms1 with
    | nil => simp [find_response, hs]
    | cons x rest ih =>
      cases hx : rule_sat qf body x <;> simp [find_response, hx, ih]

/-- Witness for C9 at a concrete dead rule. -/
theorem dead_rule_never_fires_witness :
    (rule_sat [] (JValue.num 3) ⟨some [("k", "v")], JValue.null, 201, JValue.null⟩ =
      params_satisfied [] [("k", "v")]) ∧
    (rule_sat [] (JValue.num 3) ⟨none, JValue.num 3, 201, JValue.null⟩ =
      pyEq (JValue.num 3) (JValue.num 3)) ∧
    rule_sat [] (JValue.num 3) ⟨none, JValue.null, 500, JValue.str "dead"⟩ = false ∧
    find_response [] (JValue.num 3) ⟨200, JValue.null⟩
        ([] ++ ⟨none, JValue.null, 500, JValue.str "dead"⟩ :: []) =
      find_response [] (JValue.num 3) ⟨200, JValue.null⟩ ([] ++ []) :=
  ⟨(dead_rule_never_fires ⟨none, JValue.null, 500, JValue.str "dead"⟩ rfl rfl).1
      [] (JValue.num 3) [("k", "v")] _ rfl,
   (dead_rule_never_fires ⟨none, JValue.null, 500, JValue.str "dead"⟩ rfl rfl).2.1
      [] (JValue.num 3) _ rfl (by decide),
   (dead_rule_never_fires ⟨none, JValue.null, 500, JValue.str "dead"⟩ rfl rfl).2.2.1
      [] (JValue.num 3),
   (dead_rule_never_fires ⟨none, JValue.null, 500, JValue.str "dead"⟩ rfl rfl).2.2.2
      [] (JValue.num 3) ⟨200, JValue.null⟩ [] []⟩

/-- C10: a rule whose `params` is the empty mapping is satisfied by every
request (`all` over an empty dict is `True`), so wherever it sits in the match
list, the rules after it and the route's fallback are unreachable: the match
list behaves as if it ended at this rule, with the rule's own payload as the
outcome. -/
theorem empty_params_rule_always_wins (m : MatchEntry) (h : m.params = some []) :
    ∀ qf body fb ms1 ms2,
      find_response qf body fb (ms1 ++ m :: ms2) =
        find_response qf body ⟨m.status, m.response⟩ ms1 := by
  have hs : ∀ qf body, rule_sat qf body m = true := by
    intro qf body
    simp [rule_sat, h, params_satisfied]
  intro qf body fb ms1 ms2
  induction ms1 with
  | nil => simp [find_response, hs]
  | cons x rest ih =>
    cases hx : rule_sat qf body x <;> simp [find_response, hx, ih]

/-- Witness for C10: the empty-params rule beats a later satisfiable rule and
the default, whatever the query and body. -/
theorem empty_params_rule_always_wins_witness :
    find_response (flattenQuery [("a", ["1"])]) (JValue.num 7) ⟨200, JValue.null⟩
        ([] ++ ⟨some [], JValue.null, 299, JValue.str "all"⟩ ::
          [⟨some [("a", "1")], JValue.null, 201, JValue.str "later"⟩]) =
      find_response (flattenQuery [("a", ["1"])]) (JValue.num 7)
        ⟨299, JValue.str "all"⟩ [] :=
  empty_params_rule_always_wins ⟨some [], JValue.null, 299, JValue.str "all"⟩ rfl
    (flattenQuery [("a", ["1"])]) (JValue.num 7) ⟨200, JValue.null⟩ []
    [⟨some [("a", "1")], JValue.null, 201, JValue.str "later"⟩]

/-! ### C7: 404 / 405 -/

/-- C7: when no RouteEntry exists for the request's (method, normalized path):
a route registered for the same path (necessarily under a different method,
since the lookup failed) yields `405 {"error": "Method Not Allowed"}`; no route
for the path under any method yields `404 {"error": "Not Found"}`. -/
theorem route_miss_404_405 (routes : Routes) (req : Request)
    (h : List.lookup (pyUpper req.method, normalizePath req.rawPath) routes = none) :
    ((∃ p ∈ routes, p.1.2 = normalizePath req.rawPath ∧ p.1.1 ≠ pyUpper req.method) →
        handle_request routes req = ⟨405, errBody "Method Not Allowed"⟩) ∧
    ((∀ p ∈ routes, p.1.2 ≠ normalizePath req.rawPath) →
        handle_request routes req = ⟨404, errBody "Not Found"⟩) := by
  unfold handle_request
  rw [h]
  constructor
  · rintro ⟨p, hp, hpath, -⟩
    have hany : routes.any (fun p => p.1.2 == normalizePath req.rawPath) = true := by
      rw [List.any_eq_true]
      exact ⟨p, hp, by simp [hpath]⟩
    simp [hany]
  · intro hall
    have hany : routes.any (fun p => p.1.2 == normalizePath req.rawPath) = false := by
      rw [List.any_eq_false]
      intro p hp
      simp [hall p hp]
    simp [hany]

/-- Witness for C7: a `POST` against a GET-only route, and a request to an
unknown path. -/
theorem route_miss_404_405_witness :
    handle_request [(("GET", "/users"), ⟨200, JValue.null, []⟩)]
        ⟨"POST", "/users", [], .empty⟩ = ⟨405, errBody "Method Not Allowed"⟩ ∧
    handle_request [(("GET", "/users"), ⟨200, JValue.null, []⟩)]
        ⟨"POST", "/ghost", [], .empty⟩ = ⟨404, errBody "Not Found"⟩ :=
  ⟨(route_miss_404_405 [(("GET", "/users"), ⟨200, JValue.null, []⟩)]
      ⟨"POST", "/users", [], .empty⟩ rfl).1
      ⟨(("GET", "/users"), ⟨200, JValue.null, []⟩), by simp, rfl, by decide⟩,
   (route_miss_404_405 [(("GET", "/users"), ⟨200, JValue.null, []⟩)]
      ⟨"POST", "/ghost", [], .empty⟩ rfl).2 (by decide)⟩

/-! ### C8: empty / unparseable request body -/

/-- C8: an empty or non-JSON request body is read as `None`, every
body-equality rule fails against it, and the request is still answered
normally: the first satisfied query-parameter rule, else the route's
fallback — no error response is produced. -/
theorem bad_body_treated_absent (routes : Routes) (req : Request)
    (route : RouteEntry)
    (hb : req.rawBody = RawBody.empty ∨ req.rawBody = RawBody.invalid)
    (h : List.lookup (pyUpper req.method, normalizePath req.rawPath) routes = some route) :
    read_body req.rawBody = JValue.null ∧
    (∀ m : MatchEntry, m.params = none →
      rule_sat (flattenQuery req.query) (read_body req.rawBody) m = false) ∧
    handle_request routes req =
      match route.«matches».find? (fun m =>
          match m.params with
          | some ps => params_satisfied (flattenQuery req.query) ps
          | none => false) with
      | some m => ⟨m.status, m.response⟩
      | none => ⟨route.status, route.default_response⟩ := by
  have hnull : read_body req.rawBody = JValue.null := by
    rcases hb with h1 | h1 <;> simp [h1, read_body]
  have hfail : ∀ m : MatchEntry, m.params = none →
      rule_sat (flattenQuery req.query) (read_body req.rawBody) m = false := by
    intro m hm
    rw [hnull]
    simp only [rule_sat, hm]
    by_cases hr : m.request_body = JValue.null
    · simp [hr]
    · simp [hr, pyEq_null_left _ hr]
  refine ⟨hnull, hfail, ?_⟩
  have hreq : handle_request routes req =
      find_response (flattenQuery req.query) (read_body req.rawBody)
        ⟨route.status, route.default_response⟩ route.«matches» := by
    unfold handle_request
    rw [h]
  rw [hreq, find_response_eq_find]
  have hpred : rule_sat (flattenQuery req.query) (read_body req.rawBody) =
      fun m : MatchEntry =>
        match m.params with
        | some ps => params_satisfied (flattenQuery req.query) ps
        | none => false := by
    funext m
    cases hm : m.params with
    | some ps => simp [rule_sat, hm]
    | none => rw [hfail m hm]
  rw [hpred]

/-- Witness for C8: an invalid body skips the body rule; the later
query-parameter rule still fires. -/
theorem bad_body_treated_absent_witness :
    read_body RawBody.invalid = JValue.null ∧
    rule_sat (flattenQuery [("q", ["2"])]) (read_body RawBody.invalid)
      ⟨none, JValue.num 5, 201, JValue.str "body"⟩ = false ∧
    handle_request
      [(("PUT", "/w"),
        ⟨200, JValue.str "fallback",
         [⟨none, JValue.num 5, 201, JValue.str "body"⟩,
          ⟨some [("q", "2")], JValue.null, 202, JValue.str "query"⟩]⟩)]
      ⟨"PUT", "/w", [("q", ["2"])], .invalid⟩ = ⟨202, JValue.str "query"⟩ := by
  have h := bad_body_treated_absent
    [(("PUT", "/w"),
      ⟨200, JValue.str "fallback",
       [⟨none, JValue.num 5, 201, JValue.str "body"⟩,
        ⟨some [("q", "2")], JValue.null, 202, JValue.str "query"⟩]⟩)]
    ⟨"PUT", "/w", [("q", ["2"])], .invalid⟩
    ⟨200, JValue.str "fallback",
     [⟨none, JValue.num 5, 201, JValue.str "body"⟩,
      ⟨some [("q", "2")], JValue.null, 202, JValue.str "query"⟩]⟩
    (Or.inr rfl) rfl
  exact ⟨h.1, h.2.1 _ rfl, h.2.2⟩

/-! ### C3: query-parameter rules and multi-valued parameters -/

/-- Looking a key up in the flattened query dict. -/
theorem lookup_flattenQuery (k : String) (q : List (String × List String)) :
    List.lookup k (flattenQuery q) =
      (List.lookup k q).map fun vs =>
        match vs with
        | [v] => QVal.str v
        | other => QVal.list other := by
  induction q with
  | nil => rfl
  | cons p rest ih =>
    obtain ⟨kk, vs⟩ := p
    simp only [flattenQuery] at ih ⊢
    cases hb : k == kk <;> simp [List.lookup, hb, ih]

/-- C3 counterexample: the rule `params: {a: "1"}` against the query
`?a=1&a=1`.  The spec's reading (`spec_params_first`, comparison by first
value) declares the rule satisfied, so the claim predicts the rule's response
`(201, "hit")`; the code flattens only single-valued parameters, keeps the
list `["1", "1"]`, compares it to the string `"1"`, fails, and falls back to
the route default `(200, no body)`. -/
theorem multi_param_first_value_cex :
    spec_params_first [("a", ["1", "1"])] [("a", "1")] = true ∧
    handle_request
      [(("GET", "/items"),
        ⟨200, JValue.null, [⟨some [("a", "1")], JValue.null, 201, JValue.str "hit"⟩]⟩)]
      ⟨"GET", "/items", [("a", ["1", "1"])], .empty⟩ = ⟨200, JValue.null⟩ ∧
    (⟨200, JValue.null⟩ : HttpResponse) ≠ ⟨201, JValue.str "hit"⟩ :=
  ⟨rfl, rfl, by decide⟩

/-- C3 as amended: a query-parameter rule is satisfied iff every key of its
`params` mapping occurs in the query and its flattened value equals the
expected string — a parameter occurring exactly once is compared by its value,
any other multiplicity leaves the whole value list in `query_flat`, which
never equals an expected string, so that key fails the rule. -/
theorem params_satisfied_characterization (q : List (String × List String))
    (ps : List (String × String)) :
    params_satisfied (flattenQuery q) ps =
      ps.all fun p =>
        match List.lookup p.1 q with
        | some [s] => s == p.2
        | _ => false := by
  unfold params_satisfied
  congr 1
  funext p
  rw [lookup_flattenQuery]
  cases hv : List.lookup p.1 q with
  | none => rfl
  | some vs =>
    cases vs with
    | nil => rfl
    | cons v rest =>
      cases rest with
      | nil => rfl
      | cons w r2 => rfl

/-! ### C4: body-equality matching -/

/-- The rule body `{"id": 1}` held by `payload.json`. -/
def idOne : JValue := .obj (.cons "id" (.num 1) .nil)

/-- The spec directory of the round-trip scenario: `order.post.yaml` with one
match rule whose `request_file: payload.json` points at `{"id": 1}`. -/
def c4_fs : FileSystem :=
  ⟨[⟨[], "order.post",
     .ok ⟨none, [⟨none, none, some "payload.json", some 201, some (JValue.str "hit"), none⟩],
         none, none⟩⟩],
   [("payload.json", .ok idOne)]⟩

/-- The routing table `load_specs` builds from `c4_fs`. -/
def c4_routes : Routes :=
  [(("POST", "/order"), ⟨200, JValue.null, [⟨none, idOne, 201, JValue.str "hit"⟩]⟩)]

/-- C4 counterexample: the rule loaded from `payload.json` = `{"id": 1}`
also matches the request body `{"id": true}` — a different JSON value, and one
that no type-sensitive deep equality (`jeqSpec`, the spec's wording) equates
with `{"id": 1}` — because Python `==` compares `True == 1` as equal.  So the
rule does not match "exactly `{"id": 1}` and no other value". -/
theorem body_match_type_sensitive_cex :
    load_specs c4_fs = .ok c4_routes ∧
    handle_request c4_routes
        ⟨"POST", "/order", [], .json (.obj (.cons "id" (.bool true) .nil))⟩ =
      ⟨201, JValue.str "hit"⟩ ∧
    jeqSpec (.obj (.cons "id" (.bool true) .nil)) idOne = false ∧
    (JValue.obj (.cons "id" (.bool true) .nil)) ≠ idOne :=
  ⟨rfl, rfl, rfl, by decide⟩

/-- C4 as amended: the rule built from `request_file: payload.json` containing
`{"id": 1}` matches exactly the requests whose JSON body is Python-equal
(`pyEq`) to `{"id": 1}`: deep equality that distinguishes strings from
numbers — so `{"id": "1"}` does not match — but identifies booleans with
0/1. -/
theorem body_match_pyeq (body : JValue) :
    load_specs c4_fs = .ok c4_routes ∧
    handle_request c4_routes ⟨"POST", "/order", [], .json body⟩ =
      (if pyEq body idOne then ⟨201, JValue.str "hit"⟩ else ⟨200, JValue.null⟩) ∧
    pyEq (.obj (.cons "id" (.str "1") .nil)) idOne = false := by
  refine ⟨rfl, ?_, rfl⟩
  have hreq : handle_request c4_routes ⟨"POST", "/order", [], .json body⟩ =
      find_response (flattenQuery []) body ⟨200, JValue.null⟩
        [⟨none, idOne, 201, JValue.str "hit"⟩] := rfl
  rw [hreq]
  have hrs : rule_sat (flattenQuery []) body ⟨none, idOne, 201, JValue.str "hit"⟩ =
      pyEq body idOne := by
    simp [rule_sat, idOne]
  simp [find_response, hrs]

/-! ### C2: the RouteEntry default response -/

/-- The inline payload `{"a": 1}`. -/
def aObj : JValue := .obj (.cons "a" (.num 1) .nil)

/-- A spec directory holding only `users.get.yaml` whose document carries a
top-level `response: {"a": 1}` and nothing else — no convention file. -/
def c2_fs : FileSystem := ⟨[⟨[], "users.get", .ok ⟨none, [], some aObj, none⟩⟩], []⟩

/-- C2 counterexample: the claim says the top-level inline `response:` value is
used as the route's default response; the loader never reads the key, so the
route is built with no default response (`None`) instead of `{"a": 1}`. -/
theorem top_level_response_ignored_cex :
    load_specs c2_fs = .ok [(("GET", "/users"), ⟨200, JValue.null, []⟩)] ∧
    JValue.null ≠ aObj :=
  ⟨rfl, by decide⟩

/-- C2 as amended: the RouteEntry's default response ignores the top-level
`response:` / `response_file:` keys entirely (building the entry from a config
with those fields changed is the same computation); it is resolved solely by
the convention file `<name>.<method-token>.resp.json` beside the spec file —
its parsed value when the file exists, absent (`None`) when it does not, and a
load failure when it exists but is invalid JSON. -/
theorem default_response_convention_only (fs : FileSystem) (dir : List String)
    (name tok : String) (cfg : YamlConfig) (v : Option JValue) (w : Option String) :
    (build_entry fs dir name tok { cfg with response := v, response_file := w } =
      build_entry fs dir name tok cfg) ∧
    (∀ e : RouteEntry, build_entry fs dir name tok cfg = .ok e →
      e.default_response =
        match fsJson fs (joinPath dir (name ++ "." ++ tok ++ ".resp.json")) with
        | some (.ok dv) => dv
        | _ => JValue.null) ∧
    (fsJson fs (joinPath dir (name ++ "." ++ tok ++ ".resp.json")) = some (.error ()) →
      build_entry fs dir name tok cfg = .error ()) := by
  refine ⟨rfl, ?_, ?_⟩
  · intro e he
    unfold build_entry default_response_of at he
    cases hj : fsJson fs (joinPath dir (name ++ "." ++ tok ++ ".resp.json")) with
    | none =>
      rw [hj] at he
      cases hm : build_matches fs dir name tok (cfg.status.getD 200) 1 cfg.«matches» with
      | error E => rw [hm] at he; exact absurd he (by simp)
      | ok ms =>
        rw [hm] at he
        cases he
        rfl
    | some r =>
      cases r with
      | error E => rw [hj] at he; exact absurd he (by simp)
      | ok dv =>
        rw [hj] at he
        cases hm : build_matches fs dir name tok (cfg.status.getD 200) 1 cfg.«matches» with
        | error E => rw [hm] at he; exact absurd he (by simp)
        | ok ms =>
          rw [hm] at he
          cases he
          rfl
  · intro hj
    unfold build_entry default_response_of
    rw [hj]

/-- Witness for C2's amended theorem: the convention file present, absent, and
invalid. -/
theorem default_response_convention_only_witness :
    (build_entry ⟨[], [("u.get.resp.json", .ok aObj)]⟩ [] "u" "get"
        { (⟨none, [], none, none⟩ : YamlConfig) with
            response := some aObj, response_file := some "x.json" } =
      build_entry ⟨[], [("u.get.resp.json", .ok aObj)]⟩ [] "u" "get" ⟨none, [], none, none⟩) ∧
    (RouteEntry.default_response ⟨200, aObj, []⟩ = aObj) ∧
    (build_entry ⟨[], [("u.get.resp.json", .error ())]⟩ [] "u" "get" ⟨none, [], none, none⟩ =
      .error ()) :=
  ⟨(default_response_convention_only ⟨[], [("u.get.resp.json", .ok aObj)]⟩ [] "u" "get"
      ⟨none, [], none, none⟩ (some aObj) (some "x.json")).1,
   (default_response_convention_only ⟨[], [("u.get.resp.json", .ok aObj)]⟩ [] "u" "get"
      ⟨none, [], none, none⟩ none none).2.1 ⟨200, aObj, []⟩ rfl,
   (default_response_convention_only ⟨[], [("u.get.resp.json", .error ())]⟩ [] "u" "get"
      ⟨none, [], none, none⟩ none none).2.2 rfl⟩

/-! ### C1: the reload watcher on a failed reload -/

/-- The routing table of the initial, good generation. -/
def c1_r0 : Routes := [(("GET", "/users"), ⟨200, JValue.null, []⟩)]

/-- Disk state observed at the first poll tick: `users.get.yaml` was edited
(mtime 2) into something that no longer parses. -/
def c1_bad : DiskState := ⟨⟨[⟨[], "users.get", .error ()⟩], []⟩, [("users.get.yaml", 2)]⟩

/-- Disk state observed at the second poll tick: the file was fixed (mtime 3)
and now carries `status: 201`. -/
def c1_good2 : DiskState :=
  ⟨⟨[⟨[], "users.get", .ok ⟨some 201, [], none, none⟩⟩], []⟩, [("users.get.yaml", 3)]⟩

/-- C1 counterexample: after the bad edit is detected, the reload raises; the
previously valid table `c1_r0` indeed stays live, but the exception kills the
watcher thread (`alive = false`), so the subsequent good change — whose load
would produce the `status 201` table — is never picked up, contradicting the
claim that the watcher "continues polling and reacts to subsequent
changes". -/
theorem watcher_crash_cex :
    watch_run [c1_bad, c1_good2] ⟨[("users.get.yaml", 1)], c1_r0, true⟩ =
      ⟨[("users.get.yaml", 2)], c1_r0, false⟩ ∧
    load_specs c1_good2.fs = .ok [(("GET", "/users"), ⟨201, JValue.null, []⟩)] ∧
    c1_r0 ≠ [(("GET", "/users"), ⟨201, JValue.null, []⟩)] :=
  ⟨rfl, rfl, by decide⟩

/-- C1 as amended: when a detected change makes `load_specs` raise, the
previously valid routing table remains live and keeps serving requests
unchanged (the global `routes` is never assigned), but the uncaught exception
terminates the watcher thread: a dead watcher ignores every subsequent
change. -/
theorem failed_reload_keeps_table_kills_watcher (d : DiskState) (st : WatchState)
    (h1 : st.alive = true) (h2 : snapEq d.snap st.mtimes = false)
    (h3 : load_specs d.fs = .error ()) :
    watch_tick d st = ⟨d.snap, st.routes, false⟩ ∧
    (∀ (ds : List DiskState) (w : WatchState), w.alive = false → watch_run ds w = w) := by
  constructor
  · simp [watch_tick, h1, h2, h3]
  · intro ds
    induction ds with
    | nil =>
      intro w hw
      rfl
    | cons d0 rest ih =>
      intro w hw
      have hstep : watch_tick d0 w = w := by simp [watch_tick, hw]
      calc watch_run (d0 :: rest) w = watch_run rest (watch_tick d0 w) := rfl
        _ = watch_run rest w := by rw [hstep]
        _ = w := ih w hw

/-- Witness for C1's amended theorem at the concrete failing disk state. -/
theorem failed_reload_keeps_table_kills_watcher_witness :
    watch_tick c1_bad ⟨[("users.get.yaml", 1)], c1_r0, true⟩ =
      ⟨[("users.get.yaml", 2)], c1_r0, false⟩ ∧
    watch_run [c1_good2] ⟨[("users.get.yaml", 2)], c1_r0, false⟩ =
      ⟨[("users.get.yaml", 2)], c1_r0, false⟩ :=
  ⟨(failed_reload_keeps_table_kills_watcher c1_bad
      ⟨[("users.get.yaml", 1)], c1_r0, true⟩ rfl rfl rfl).1,
   (failed_reload_keeps_table_kills_watcher c1_bad
      ⟨[("users.get.yaml", 1)], c1_r0, true⟩ rfl rfl rfl).2
      [c1_good2] ⟨[("users.get.yaml", 2)], c1_r0, false⟩ rfl⟩

/-! ### Order facts about the path comparison (for C5) -/

theorem chLt_irrefl : ∀ a : List Char, chLt a a = false := by
  intro a
  induction a with
  | nil => rfl
  | cons x xs ih => simp [chLt, ih]

theorem chLt_trans : ∀ a b c : List Char,
    chLt a b = true → chLt b c = true → chLt a c = true := by
  intro a
  induction a with
  | nil =>
    intro b c hab hbc
    cases b with
    | nil => simp [chLt] at hab
    | cons y ys =>
      cases c with
      | nil => simp [chLt] at hbc
      | cons z zs => simp [chLt]
  | cons x xs ih =>
    intro b c hab hbc
    cases b with
    | nil => simp [chLt] at hab
    | cons y ys =>
      cases c with
      | nil => simp [chLt] at hbc
      | cons z zs =>
        simp only [chLt] at hab hbc ⊢
        by_cases h1 : x.toNat < y.toNat
        · by_cases h2 : y.toNat < z.toNat
          · simp [Nat.lt_trans h1 h2]
          · by_cases h3 : z.toNat < y.toNat
            · simp [h2, h3] at hbc
            · have hyz : y.toNat = z.toNat :=
                Nat.le_antisymm (Nat.le_of_not_lt h3) (Nat.le_of_not_lt h2)
              simp [hyz ▸ h1]
        · by_cases h4 : y.toNat < x.toNat
          · simp [h1, h4] at hab
          · have hxy : x.toNat = y.toNat :=
              Nat.le_antisymm (Nat.le_of_not_lt h4) (Nat.le_of_not_lt h1)
            simp [h1, h4] at hab
            by_cases h2 : y.toNat < z.toNat
            · simp [hxy ▸ h2]
            · by_cases h3 : z.toNat < y.toNat
              · simp [h2, h3] at hbc
              · have hyz : y.toNat = z.toNat :=
                  Nat.le_antisymm (Nat.le_of_not_lt h3) (Nat.le_of_not_lt h2)
                simp [h2, h3] at hbc
                have hxz : ¬ x.toNat < z.toNat := by omega
                have hzx : ¬ z.toNat < x.toNat := by omega
                simp [hxz, hzx]
                exact ih ys zs hab hbc

theorem chLt_total : ∀ a b : List Char, a ≠ b →
    chLt a b = true ∨ chLt b a = true := by
  intro a
  induction a with
  | nil =>
    intro b hne
    cases b with
    | nil => exact absurd rfl hne
    | cons y ys => left; simp [chLt]
  | cons x xs ih =>
    intro b hne
    cases b with
    | nil => right; simp [chLt]
    | cons y ys =>
      by_cases h1 : x.toNat < y.toNat
      · left; simp [chLt, h1]
      · by_cases h2 : y.toNat < x.toNat
        · right; simp [chLt, h2]
        · have hval : x.val = y.val := by
            have hn : x.val.toNat = y.val.toNat := by
              simp only [Char.toNat] at h1 h2
              omega
            exact UInt32.toNat.inj hn
          have hxy : x = y := Char.ext hval
          subst hxy
          have hne2 : xs ≠ ys := fun he => hne (by rw [he])
          rcases ih ys hne2 with h | h
          · left; simp [chLt, h1, h2, h]
          · right; simp [chLt, h1, h2, h]

theorem strLe_trans {a b c : String} (h1 : strLe a b = true)
    (h2 : strLe b c = true) : strLe a c = true := by
  simp only [strLe, Bool.or_eq_true, beq_iff_eq] at h1 h2 ⊢
  rcases h1 with h1 | h1
  · rcases h2 with h2 | h2
    · exact Or.inl (chLt_trans _ _ _ h1 h2)
    · subst h2; exact Or.inl h1
  · subst h1; exact h2

theorem strLe_total (a b : String) : strLe a b = true ∨ strLe b a = true := by
  by_cases he : a = b
  · subst he; left; simp [strLe]
  · have hl : a.toList ≠ b.toList := by
      intro h
      exact he (String.ext h)
    rcases chLt_total _ _ hl with h | h
    · left
      have hlt : strLt a b = true := h
      simp [strLe, hlt]
    · right
      have hlt : strLt b a = true := h
      simp [strLe, hlt]

theorem strLe_lt_absurd {a b : String} (h1 : strLe a b = true)
    (h2 : strLt b a = true) : False := by
  simp only [strLe, Bool.or_eq_true, beq_iff_eq] at h1
  simp only [strLt] at h1 h2
  rcases h1 with h1 | h1
  · have := chLt_trans _ _ _ h1 h2
    rw [chLt_irrefl] at this
    exact Bool.noConfusion this
  · subst h1
    rw [chLt_irrefl] at h2
    exact Bool.noConfusion h2

instance : IsTrans YamlFile (fun a b => pathLe a b = true) where
  trans _ _ _ hab hbc := strLe_trans hab hbc

instance : IsTotal YamlFile (fun a b => pathLe a b = true) where
  total a b := strLe_total (relPath a) (relPath b)

/-! ### Loader fold lemmas (for C5) -/

/-- An exception propagates through the rest of the loader loop. -/
theorem foldl_load_error (fs : FileSystem) :
    ∀ (L : List YamlFile) (e : Unit), L.foldl (load_step fs) (.error e) = .error e := by
  intro L
  induction L with
  | nil => intro e; rfl
  | cons x rest ih => intro e; simpa [load_step] using ih e

/-- A file whose stem has fewer than two dot-separated parts is skipped,
whatever its content and whatever the accumulated state. -/
theorem load_step_skip (fs : FileSystem) (f : YamlFile)
    (h : route_key f = none) : ∀ acc, load_step fs acc f = acc := by
  intro acc
  cases acc with
  | error e => rfl
  | ok rs =>
    unfold route_key at h
    cases hs : splitOnDot f.stem with
    | nil => simp [load_step, hs]
    | cons a t =>
      cases t with
      | nil => simp [load_step, hs]
      | cons b t2 => rw [hs] at h; simp at h

/-- A file with a derivable key either fails the whole load or prepends its
entry under its key. -/
theorem load_step_derive (fs : FileSystem) (f : YamlFile) (name tok : String)
    (restParts : List String) (hs : splitOnDot f.stem = name :: tok :: restParts)
    (rs : Routes) :
    load_step fs (.ok rs) f =
      (entry_of fs f).map
        (fun e => ((pyUpper tok, url_path f.dirParts name), e) :: rs) := by
  unfold load_step entry_of
  rw [hs]
  cases f.content with
  | error e => rfl
  | ok cfg =>
    dsimp only
    cases hbe : build_entry fs f.dirParts name tok cfg with
    | error e => cases e; rfl
    | ok entry => rfl

/-- Files that do not derive key `k` leave the binding of `k` untouched. -/
theorem lookup_preserved (fs : FileSystem) (k : RouteKey) :
    ∀ (L : List YamlFile) (rs rs' : Routes),
      (∀ g ∈ L, route_key g ≠ some k) →
      L.foldl (load_step fs) (.ok rs) = .ok rs' →
      List.lookup k rs' = List.lookup k rs := by
  intro L
  induction L with
  | nil =>
    intro rs rs' _ h
    cases h
    rfl
  | cons x rest ih =>
    intro rs rs' hall h
    rw [List.foldl_cons] at h
    cases hstep : load_step fs (.ok rs) x with
    | error e =>
      rw [hstep, foldl_load_error] at h
      exact absurd h (by simp)
    | ok rs1 =>
      rw [hstep] at h
      have h1 : List.lookup k rs1 = List.lookup k rs := by
        cases hs : splitOnDot x.stem with
        | nil =>
          have hsk := load_step_skip fs x (by simp [route_key, hs]) (.ok rs)
          rw [hsk] at hstep
          cases hstep
          rfl
        | cons a t =>
          cases t with
          | nil =>
            have hsk := load_step_skip fs x (by simp [route_key, hs]) (.ok rs)
            rw [hsk] at hstep
            cases hstep
            rfl
          | cons b t2 =>
            have hkx : route_key x = some (pyUpper b, url_path x.dirParts a) := by
              simp [route_key, hs]
            have hne : (pyUpper b, url_path x.dirParts a) ≠ k := by
              intro he
              exact hall x (by simp) (by rw [hkx, he])
            rw [load_step_derive fs x a b t2 hs rs] at hstep
            cases hco : entry_of fs x with
            | error e =>
              rw [hco] at hstep
              simp [Except.map] at hstep
            | ok e =>
              rw [hco] at hstep
              simp only [Except.map, Except.ok.injEq] at hstep
              rw [← hstep]
              simp [List.lookup, beq_false_of_ne (Ne.symm hne)]
      rw [ih rs1 rs' (fun g hg => hall g (by simp [hg])) h, h1]

/-- A key is bound after the fold iff some processed file derives it or it was
bound before. -/
theorem lookup_isSome_foldl (fs : FileSystem) (k : RouteKey) :
    ∀ (L : List YamlFile) (rs0 rs : Routes),
      L.foldl (load_step fs) (.ok rs0) = .ok rs →
      ((List.lookup k rs).isSome ↔
        (∃ f ∈ L, route_key f = some k) ∨ (List.lookup k rs0).isSome) := by
  intro L
  induction L with
  | nil =>
    intro rs0 rs h
    cases h
    simp
  | cons x rest ih =>
    intro rs0 rs h
    rw [List.foldl_cons] at h
    cases hstep : load_step fs (.ok rs0) x with
    | error e =>
      rw [hstep, foldl_load_error] at h
      exact absurd h (by simp)
    | ok rs1 =>
      rw [hstep] at h
      have ihh := ih rs1 rs h
      cases hs : splitOnDot x.stem with
      | nil =>
        have hkx : route_key x = none := by simp [route_key, hs]
        have hsk := load_step_skip fs x hkx (.ok rs0)
        rw [hsk] at hstep
        cases hstep
        rw [ihh]
        simp only [List.mem_cons]
        constructor
        · rintro (⟨f, hf, hfk⟩ | hb)
          · exact Or.inl ⟨f, Or.inr hf, hfk⟩
          · exact Or.inr hb
        · rintro (⟨f, hf | hf, hfk⟩ | hb)
          · subst hf; rw [hkx] at hfk; exact absurd hfk (by simp)
          · exact Or.inl ⟨f, hf, hfk⟩
          · exact Or.inr hb
      | cons a t =>
        cases t with
        | nil =>
          have hkx : route_key x = none := by simp [route_key, hs]
          have hsk := load_step_skip fs x hkx (.ok rs0)
          rw [hsk] at hstep
          cases hstep
          rw [ihh]
          simp only [List.mem_cons]
          constructor
          · rintro (⟨f, hf, hfk⟩ | hb)
            · exact Or.inl ⟨f, Or.inr hf, hfk⟩
            · exact Or.inr hb
          · rintro (⟨f, hf | hf, hfk⟩ | hb)
            · subst hf; rw [hkx] at hfk; exact absurd hfk (by simp)
            · exact Or.inl ⟨f, hf, hfk⟩
            · exact Or.inr hb
        | cons b t2 =>
          have hkx : route_key x = some (pyUpper b, url_path x.dirParts a) := by
            simp [route_key, hs]
          rw [load_step_derive fs x a b t2 hs rs0] at hstep
          cases hco : entry_of fs x with
          | error e =>
            rw [hco] at hstep
            simp [Except.map] at hstep
          | ok e =>
            rw [hco] at hstep
            simp only [Except.map, Except.ok.injEq] at hstep
            rw [ihh, ← hstep]
            by_cases hkk : k = (pyUpper b, url_path x.dirParts a)
            · simp only [List.mem_cons]
              constructor
              · intro _
                exact Or.inl ⟨x, Or.inl rfl, by rw [hkx, hkk]⟩
              · intro _
                right
                simp [List.lookup, hkk]
            · have hlu : List.lookup k (((pyUpper b, url_path x.dirParts a), e) :: rs0) =
                  List.lookup k rs0 := by
                simp [List.lookup, beq_false_of_ne hkk]
              rw [hlu]
              simp only [List.mem_cons]
              constructor
              · rintro (⟨f, hf, hfk⟩ | hb)
                · exact Or.inl ⟨f, Or.inr hf, hfk⟩
                · exact Or.inr hb
              · rintro (⟨f, hf | hf, hfk⟩ | hb)
                · subst hf
                  rw [hkx] at hfk
                  cases hfk
                  exact absurd rfl hkk
                · exact Or.inl ⟨f, hf, hfk⟩
                · exact Or.inr hb

/-- Over a path-sorted file list, the binding of `k` after the fold is the
entry of the maximal-path file deriving `k`. -/
theorem lookup_foldl_max (fs : FileSystem) (k : RouteKey) (f : YamlFile) :
    ∀ L : List YamlFile, L.Pairwise (fun a b => pathLe a b = true) →
      f ∈ L → route_key f = some k →
      (∀ g ∈ L, route_key g = some k → g = f ∨ strLt (relPath g) (relPath f) = true) →
      ∀ (rs0 rs : Routes), L.foldl (load_step fs) (.ok rs0) = .ok rs →
        List.lookup k rs = (entry_of fs f).toOption := by
  intro L
  induction L with
  | nil =>
    intro _ hf
    cases hf
  | cons x rest ih =>
    intro hpw hf hkey hmax rs0 rs h
    rw [List.foldl_cons] at h
    cases hstep : load_step fs (.ok rs0) x with
    | error e =>
      rw [hstep, foldl_load_error] at h
      exact absurd h (by simp)
    | ok rs1 =>
      rw [hstep] at h
      by_cases hfr : f ∈ rest
      · exact ih (List.pairwise_cons.mp hpw).2 hfr hkey
          (fun g hg hgk => hmax g (List.mem_cons.mpr (Or.inr hg)) hgk) rs1 rs h
      · have hfx : f = x := by
          rcases List.mem_cons.mp hf with h1 | h1
          · exact h1
          · exact absurd h1 hfr
        subst hfx
        have hnone : ∀ g ∈ rest, route_key g ≠ some k := by
          intro g hg hgk
          rcases hmax g (List.mem_cons.mpr (Or.inr hg)) hgk with he | hlt
          · exact hfr (he ▸ hg)
          · exact strLe_lt_absurd ((List.pairwise_cons.mp hpw).1 g hg) hlt
        cases hs : splitOnDot f.stem with
        | nil => simp [route_key, hs] at hkey
        | cons a t =>
          cases t with
          | nil => simp [route_key, hs] at hkey
          | cons b t2 =>
            have hk2 : (pyUpper b, url_path f.dirParts a) = k := by
              simpa [route_key, hs] using hkey
            rw [load_step_derive fs f a b t2 hs rs0] at hstep
            cases hco : entry_of fs f with
            | error e =>
              rw [hco] at hstep
              simp [Except.map] at hstep
            | ok e =>
              rw [hco] at hstep
              simp only [Except.map, Except.ok.injEq] at hstep
              rw [lookup_preserved fs k rest rs1 rs hnone h, ← hstep]
              simp [List.lookup, hk2, Except.toOption]

/-! ### C5: the generated route keys and duplicate resolution -/

/-- C5: for any spec directory, (1) the loaded table binds exactly the keys
derivable from stems with at least two dot-separated parts
(`route_key`), (2) a file whose stem does not match the pattern is skipped
without contributing an error or an entry, and (3) when several files derive
the same key, the table binds the entry built from the file whose relative
path is lexicographically greatest, i.e. the last one in the loader's sorted
iteration order. -/
theorem load_specs_keys_and_last_wins (fs : FileSystem) (rs : Routes)
    (hok : load_specs fs = .ok rs) :
    (∀ k : RouteKey,
      (List.lookup k rs).isSome ↔ ∃ f ∈ fs.yamls, route_key f = some k) ∧
    (∀ (f : YamlFile) (acc : Except Unit Routes), route_key f = none →
        load_step fs acc f = acc) ∧
    (∀ (k : RouteKey) (f : YamlFile), f ∈ fs.yamls → route_key f = some k →
      (∀ g ∈ fs.yamls, route_key g = some k →
        g = f ∨ strLt (relPath g) (relPath f) = true) →
      List.lookup k rs = (entry_of fs f).toOption) := by
  unfold load_specs at hok
  refine ⟨?_, ?_, ?_⟩
  · intro k
    rw [lookup_isSome_foldl fs k _ [] rs hok]
    constructor
    · rintro (⟨f, hf, hfk⟩ | hb)
      · exact ⟨f, (List.mem_insertionSort _).mp hf, hfk⟩
      · simp [List.lookup] at hb
    · rintro ⟨f, hf, hfk⟩
      exact Or.inl ⟨f, (List.mem_insertionSort _).mpr hf, hfk⟩
  · intro f acc h
    exact load_step_skip fs f h acc
  · intro k f hf hkey hmax
    exact lookup_foldl_max fs k f _
      (List.sorted_insertionSort _ fs.yamls)
      ((List.mem_insertionSort _).mpr hf) hkey
      (fun g hg => hmax g ((List.mem_insertionSort _).mp hg)) [] rs hok

/-- The spec directory of the C5 witness: two files deriving the key
`(GET, /users)` — `users.get.yaml` (fallback 200) and `users.get.extra.yaml`
(fallback 201) — plus a `readme.yaml` that does not even parse but is skipped
before being read. -/
def c5_fs : FileSystem :=
  ⟨[⟨[], "users.get.extra", .ok ⟨some 201, [], none, none⟩⟩,
    ⟨[], "users.get", .ok ⟨none, [], none, none⟩⟩,
    ⟨[], "readme", .error ()⟩],
   []⟩

/-- Witness for C5: the key is bound, the malformed non-spec file is skipped
without error, and `users.get.yaml` — the lexicographically last of the two
deriving files — wins, contributing the status-200 entry. -/
theorem load_specs_keys_and_last_wins_witness :
    (List.lookup (("GET", "/users") : RouteKey)
      [((("GET", "/users") : RouteKey), (⟨200, JValue.null, []⟩ : RouteEntry)),
       ((("GET", "/users") : RouteKey), (⟨201, JValue.null, []⟩ : RouteEntry))]).isSome ∧
    load_step c5_fs (.ok []) ⟨[], "readme", .error ()⟩ = .ok [] ∧
    List.lookup (("GET", "/users") : RouteKey)
        [((("GET", "/users") : RouteKey), (⟨200, JValue.null, []⟩ : RouteEntry)),
         ((("GET", "/users") : RouteKey), (⟨201, JValue.null, []⟩ : RouteEntry))] =
      (entry_of c5_fs ⟨[], "users.get", .ok ⟨none, [], none, none⟩⟩).toOption :=
  ⟨((load_specs_keys_and_last_wins c5_fs _ rfl).1 ("GET", "/users")).mpr
      ⟨⟨[], "users.get", .ok ⟨none, [], none, none⟩⟩, by decide, rfl⟩,
   (load_specs_keys_and_last_wins c5_fs _ rfl).2.1 ⟨[], "readme", .error ()⟩ (.ok []) rfl,
   (load_specs_keys_and_last_wins c5_fs _ rfl).2.2 ("GET", "/users")
      ⟨[], "users.get", .ok ⟨none, [], none, none⟩⟩ (by decide) rfl (by decide)⟩

end Mockpath
